import Mathlib

/-!
Verification of the devkit client core (discovery cache, machine resolution,
remote execution, sync, polling protocols) against its natural-language
specification.  The definitions below are a shallow embedding of
`src/client/devkit_client/__init__.py`; external library calls of the Python
standard library (json, shlex, unicodedata) are modelled by small executable
Lean functions faithful to their behaviour on the inputs these claims
exercise, as documented on each definition.
-/

/-! ## Python string primitives -/

/-- Python `str.maketrans(string.ascii_uppercase, string.ascii_lowercase)`:
the explicit 26-pair translation table built at module scope (`ASCII_LOWERCASE`). -/
def lowerPairs : List (Char × Char) :=
  [('A', 'a'), ('B', 'b'), ('C', 'c'), ('D', 'd'), ('E', 'e'), ('F', 'f'),
   ('G', 'g'), ('H', 'h'), ('I', 'i'), ('J', 'j'), ('K', 'k'), ('L', 'l'),
   ('M', 'm'), ('N', 'n'), ('O', 'o'), ('P', 'p'), ('Q', 'q'), ('R', 'r'),
   ('S', 's'), ('T', 't'), ('U', 'u'), ('V', 'v'), ('W', 'w'), ('X', 'x'),
   ('Y', 'y'), ('Z', 'z')]

/-- Translate one character through the `ASCII_LOWERCASE` table. -/
def asciiLower (c : Char) : Char :=
  ((lowerPairs.find? (fun p => p.1 == c)).map (fun p => p.2)).getD c

/-- Python `s.translate(ASCII_LOWERCASE)`. -/
def pyLower (s : String) : String := ⟨s.data.map asciiLower⟩

/-- Python `s.rstrip(c)` for a single strip character: remove every trailing
occurrence of `c`. -/
def pyRstrip (s : String) (c : Char) : String :=
  ⟨(s.data.reverse.dropWhile (fun x => x == c)).reverse⟩

/-- Python `s.rstrip('.')`. -/
def rstripDot (s : String) : String := pyRstrip s '.'

/-- Python `s.strip()` (whitespace at both ends). -/
def pyStrip (s : String) : String :=
  ⟨((s.data.dropWhile Char.isWhitespace).reverse.dropWhile Char.isWhitespace).reverse⟩

/-- Python `s.endswith(suf)`. -/
def strEndsWith (s suf : String) : Bool := suf.data.isSuffixOf s.data

/-- Python `c in s` for a single character. -/
def strContainsChar (s : String) (c : Char) : Bool := s.data.contains c

/-- Python slicing `s[:-n]`, including the `n = 0` corner where `s[:-0]`
is `s[:0] = ''`. -/
def pyDropEnd (s : String) (n : Nat) : String :=
  if n = 0 then "" else ⟨s.data.take (s.data.length - n)⟩

/-- Proper suffix removal (`pathlib`'s `with_suffix('')` behaviour: removing a
zero-length suffix leaves the string unchanged). -/
def dropEndLen (s : String) (n : Nat) : String := ⟨s.data.take (s.data.length - n)⟩

/-- Substring test, Python `needle in hay` on strings. -/
def strIn (needle hay : List Char) : Bool :=
  match hay with
  | [] => needle.isEmpty
  | _ :: t => needle.isPrefixOf hay || strIn needle t

/-- An ASCII code point. -/
def isAsciiChar (c : Char) : Bool := decide (c.toNat < 128)

/-- A string of ASCII code points only. -/
def isAsciiString (s : String) : Bool := s.data.all isAsciiChar

/-! ## Decimal rendering (Python `str(n)` / `f-string` formatting) -/

/-- Decimal digits, most significant first, with explicit fuel (the fuel is
adequate whenever `n ≤ fuel`). -/
def digits10Aux : Nat → Nat → List Nat
  | 0, n => [n]
  | fuel + 1, n => if n < 10 then [n] else digits10Aux fuel (n / 10) ++ [n % 10]

/-- Decimal digits of a natural number, most significant first. -/
def digits10 (n : Nat) : List Nat := digits10Aux n n

/-- Character for one decimal digit. -/
def digitChar (d : Nat) : Char :=
  match d with
  | 0 => '0' | 1 => '1' | 2 => '2' | 3 => '3' | 4 => '4'
  | 5 => '5' | 6 => '6' | 7 => '7' | 8 => '8' | _ => '9'

/-- Decimal digit characters of `n`, most significant first. -/
def reprL (n : Nat) : List Char := (digits10 n).map digitChar

/-- Python `str(n)` for a natural number. -/
def natRepr (n : Nat) : String := ⟨reprL n⟩

/-- Zero-pad a character list on the left to width 3 (Python `f-string`
format spec `03`). -/
def pad3L (l : List Char) : List Char := List.replicate (3 - l.length) '0' ++ l

/-- Python `f-string` `i:03` formatting of a natural number. -/
def pad3 (n : Nat) : String := ⟨pad3L (reprL n)⟩

/-- Python `socket.inet_ntoa` on a 4-byte IPv4 address. -/
def inet_ntoa (a : Nat × Nat × Nat × Nat) : String :=
  natRepr a.1 ++ "." ++ natRepr a.2.1 ++ "." ++ natRepr a.2.2.1 ++ "." ++ natRepr a.2.2.2

/-! ## JSON (model of the Python `json` standard library module) -/

/-- JSON values as produced by Python `json.loads`. -/
inductive Json where
  | null
  | bool (b : Bool)
  | num (n : Int)
  | str (s : String)
  | arr (elems : List Json)
  | obj (fields : List (String × Json))

/-- Whitespace accepted between JSON tokens. -/
def jsonWs (cs : List Char) : List Char :=
  cs.dropWhile (fun c => c == ' ' || c == '\t' || c == '\n' || c == '\r')

/-- Parse a decimal natural number prefix. -/
def parseNatPre (cs : List Char) : Option (Nat × List Char) :=
  let ds := cs.takeWhile Char.isDigit
  if ds.isEmpty then none
  else some (ds.foldl (fun a c => 10 * a + (c.toNat - 48)) 0, cs.dropWhile Char.isDigit)

/-- Parse a JSON string body after the opening quote.  Escape sequences are
not modelled; none of the strings exchanged in these claims contain them. -/
def parseStringBody (cs : List Char) : Option (String × List Char) :=
  let body := cs.takeWhile (fun c => c != '"')
  match cs.dropWhile (fun c => c != '"') with
  | '"' :: rest => some (⟨body⟩, rest)
  | _ => none

/-- Parse a JSON literal or number. -/
def parseAtom (cs : List Char) : Option (Json × List Char) :=
  match cs with
  | 'n' :: 'u' :: 'l' :: 'l' :: rest => some (.null, rest)
  | 't' :: 'r' :: 'u' :: 'e' :: rest => some (.bool true, rest)
  | 'f' :: 'a' :: 'l' :: 's' :: 'e' :: rest => some (.bool false, rest)
  | '-' :: rest => (parseNatPre rest).map (fun p => (.num (-(p.1 : Int)), p.2))
  | _ => (parseNatPre cs).map (fun p => (.num (p.1 : Int), p.2))

mutual

/-- Recursive-descent JSON value parser, fuelled by input length. -/
def parseValue : Nat → List Char → Option (Json × List Char)
  | 0, _ => none
  | f + 1, cs =>
    match jsonWs cs with
    | '{' :: rest =>
      (match jsonWs rest with
       | '}' :: rest2 => some (.obj [], rest2)
       | rest2 => parseMembers f rest2 [])
    | '[' :: rest =>
      (match jsonWs rest with
       | ']' :: rest2 => some (.arr [], rest2)
       | rest2 => parseItems f rest2 [])
    | '"' :: rest =>
      (match parseStringBody rest with
       | some (s, rest2) => some (.str s, rest2)
       | none => none)
    | other => parseAtom other

/-- Parse the members of a JSON object after the opening brace. -/
def parseMembers : Nat → List Char → List (String × Json) → Option (Json × List Char)
  | 0, _, _ => none
  | f + 1, cs, acc =>
    match jsonWs cs with
    | '"' :: rest =>
      (match parseStringBody rest with
       | none => none
       | some (k, rest2) =>
         match jsonWs rest2 with
         | ':' :: rest3 =>
           (match parseValue f rest3 with
            | none => none
            | some (v, rest4) =>
              match jsonWs rest4 with
              | ',' :: rest5 => parseMembers f rest5 (acc ++ [(k, v)])
              | '}' :: rest5 => some (.obj (acc ++ [(k, v)]), rest5)
              | _ => none)
         | _ => none)
    | _ => none

/-- Parse the items of a JSON array after the opening bracket. -/
def parseItems : Nat → List Char → List Json → Option (Json × List Char)
  | 0, _, _ => none
  | f + 1, cs, acc =>
    match parseValue f cs with
    | none => none
    | some (v, rest) =>
      match jsonWs rest with
      | ',' :: rest2 => parseItems f rest2 (acc ++ [v])
      | ']' :: rest2 => some (.arr (acc ++ [v]), rest2)
      | _ => none

end

/-- Python `json.loads`: parse a complete document, rejecting trailing content.
Error strings mirror the two `json.JSONDecodeError` families relevant here. -/
def jsonLoads (s : String) : Except String Json :=
  match parseValue (s.data.length + 1) s.data with
  | some (j, rest) => if jsonWs rest = [] then .ok j else .error "Extra data"
  | none => .error "Expecting value"

/-- Python `shlex.split` as used on the `devkit1` TXT property.  Quoting and
escapes are not modelled; the entry-point strings these claims exercise are
plain whitespace-separated words. -/
def shlexSplit (s : String) : List String :=
  ((s.data.splitOnP Char.isWhitespace).map (fun l => (⟨l⟩ : String))).filter (fun w => w ≠ "")

/-! ## Module constants (`src/client/devkit_client/__init__.py` lines 82-101) -/

def STEAMOS_DEVKIT_SERVICE : String := "_steamos-devkit._tcp"
def LOCAL_DOMAIN : String := "local"
def DEFAULT_DEVKIT_SERVICE_HTTP : Nat := 32000
def STEAM_DEVKIT_TYPE : String := STEAMOS_DEVKIT_SERVICE ++ "." ++ LOCAL_DOMAIN ++ "."
def CURRENT_TXTVERS : String := "1"

/-! ## Discovery data model -/

/-- Zeroconf `ServiceInfo` as the listener consumes it: IPv4 addresses (4-byte
tuples), service port, TXT properties.  TXT keys and values are modelled as
decoded text. -/
structure SvcInfo where
  addresses : List (Nat × Nat × Nat × Nat)
  port : Nat
  properties : List (String × String)
deriving DecidableEq

/-- Events pushed onto `ServiceListener.devkit_events`. -/
inductive EvKind where
  | add
  | update
  | del
deriving DecidableEq

/-- State owned by `ServiceListener`: the `devkits` name-to-record map (a
Python dict, modelled as a duplicate-free association list in insertion
order) and the `devkit_events` FIFO queue (appended on `put`). -/
structure ListenerState where
  devkits : List (String × SvcInfo)
  events : List (EvKind × String)

/-- Python dict assignment `d[k] = v`: replace in place or append. -/
def dictSet (l : List (String × SvcInfo)) (k : String) (v : SvcInfo) :
    List (String × SvcInfo) :=
  match l with
  | [] => [(k, v)]
  | (k', v') :: t => if k' = k then (k, v) :: t else (k', v') :: dictSet t k v

/-- Python `del d[k]` (first occurrence; dicts hold each key once). -/
def dictDel (l : List (String × SvcInfo)) (k : String) : List (String × SvcInfo) :=
  match l with
  | [] => []
  | (k', v') :: t => if k' = k then t else (k', v') :: dictDel t k

/-- The `name[:-len('.' + type)]` strip performed by the listener callbacks,
guarded by their `assert name.endswith('.' + type)`; `none` models the
assertion firing. -/
def stripServiceType (name : String) : Option String :=
  if strEndsWith name ("." ++ STEAM_DEVKIT_TYPE) then
    some (pyDropEnd name ("." ++ STEAM_DEVKIT_TYPE).length)
  else none

/-- The `txtvers` compatibility veto in `ServiceListener.add_service`:
properties are consulted only when non-empty (`if prop:`), and the record is
dropped when a `txtvers` key is present with a value other than
`CURRENT_TXTVERS`. -/
def txtversIncompatible (info : SvcInfo) : Bool :=
  if info.properties = [] then false
  else
    match List.lookup "txtvers" info.properties with
    | some v => v != CURRENT_TXTVERS
    | none => false

/-- `ServiceListener.add_service` (also `update_service`).  `queryResult` is
the outcome of the `zc.get_service_info` call made inside the callback;
`none` overall models a raised exception (assertion failure, or the
`IndexError` from logging `info.addresses[0]` on a record with no
addresses). -/
def add_service (st : ListenerState) (name : String) (queryResult : Option SvcInfo) :
    Option ListenerState :=
  match stripServiceType name with
  | none => none
  | some service_name =>
    match queryResult with
    | none => some st
    | some info =>
      match info.addresses with
      | [] => none
      | _ :: _ =>
        if txtversIncompatible info then some st
        else if (List.lookup service_name st.devkits).isSome then
          some { devkits := dictSet st.devkits service_name info,
                 events := st.events ++ [(.update, service_name)] }
        else
          some { devkits := dictSet st.devkits service_name info,
                 events := st.events ++ [(.add, service_name)] }

/-- `ServiceListener.remove_service`: unknown names are logged and ignored. -/
def remove_service (st : ListenerState) (name : String) : Option ListenerState :=
  match stripServiceType name with
  | none => none
  | some service_name =>
    if (List.lookup service_name st.devkits).isNone then some st
    else
      some { devkits := dictDel st.devkits service_name,
             events := st.events ++ [(.del, service_name)] }

/-- `ServiceListener.address_for_service`: cached address or `None`.  Cached
records always carry at least one address (see `add_service`). -/
def address_for_service (st : ListenerState) (name : String) : Option String :=
  match List.lookup name st.devkits with
  | none => none
  | some info => info.addresses.head?.map inet_ntoa

/-- `ServiceListener.port_for_service`: cached port or the default. -/
def port_for_service (st : ListenerState) (name : String) : Nat :=
  match List.lookup name st.devkits with
  | none => DEFAULT_DEVKIT_SERVICE_HTTP
  | some info => info.port

/-! ## Machine resolution -/

/-- Failures out of `resolve_machine` / `update_service_info`:
`MachineNotFoundError`, `json` decode errors, and Python `TypeError`s from
ill-typed metadata. -/
inductive ResolveError where
  | machineNotFound (msg : String)
  | jsonError (msg : String)
  | typeError

/-- The `Machine` instance built by `resolve_machine`.  `login` holds the raw
JSON value Python would store (`machine.login = json_object['login']` is
untyped); `settings` likewise. -/
structure Machine where
  address : String
  name : String
  normalized_name : String
  login : Option Json
  devkit1 : List Json
  settings : Json
  http_port : Nat

/-- `Machine.__init__`. -/
def initMachine (name : String) (devkit1 : List Json) (login : Option Json)
    (http_port : Nat) : Machine :=
  { address := name, name := name, normalized_name := name, login := login,
    devkit1 := devkit1, settings := .obj [], http_port := http_port }

/-- Modelled from the spec: the character-wise fragment of
`unicodedata.normalize('NFC', c)` from the Python standard library (an
external collaborator, not part of this repository).  The table carries the
singleton canonical decompositions NFC applies to lone characters — notably
U+212A KELVIN SIGN to ASCII `K`, also U+212B ANGSTROM SIGN to U+00C5 and
U+2126 OHM SIGN to U+03A9 — and is the identity elsewhere, in particular on
every ASCII character, where real NFC is the identity.  Composition of
combining sequences is not modelled; no claim exercises one. -/
def nfcChar (c : Char) : Char :=
  if c = '\u212A' then 'K'
  else if c = '\u212B' then '\u00C5'
  else if c = '\u2126' then '\u03A9'
  else c

/-- Modelled from the spec: `unicodedata.normalize('NFC', s)` applied
character-wise through `nfcChar`. -/
def nfc (s : String) : String := ⟨s.data.map nfcChar⟩

/-- The normalized-name computation of `ServiceListener.update_service_info`:
ASCII case-fold, strip trailing dots, NFC-normalize. -/
def normalizeServiceName (s : String) : String := nfc (rstripDot (pyLower s))

/-- The normalized-name computation of the `ADDRESS` branch of
`resolve_machine`: ASCII case-fold and strip trailing dots (no NFC step). -/
def normalizeAddress (s : String) : String := rstripDot (pyLower s)

/-- Record selection in `ServiceListener.update_service_info`: cached record
if present, else one synchronous `zc.get_service_info` query. -/
def serviceInfoFor (st : ListenerState) (query : String → Option SvcInfo)
    (sname : String) : Option SvcInfo :=
  match List.lookup sname st.devkits with
  | some i => some i
  | none => query (sname ++ "." ++ STEAM_DEVKIT_TYPE)

/-- The property fills of `update_service_info`: `settings` is decoded
whenever present; `login` and `devkit1` are consulted only when
`machine.login` is unset.  (Python reads `machine.login` after the
`settings` assignment, which never touches it, so the guard here reads the
incoming machine.) -/
def applyProps (props : List (String × String)) (m : Machine) :
    Except ResolveError Machine :=
  if props = [] then .ok m
  else
    match
      ((match List.lookup "settings" props with
        | none => Except.ok m.settings
        | some s =>
          match jsonLoads s with
          | .ok j => .ok j
          | .error e => .error (.jsonError e)) : Except ResolveError Json) with
    | .error e => .error e
    | .ok newSettings =>
      if m.login.isNone then
        .ok { m with
              settings := newSettings,
              login := (match List.lookup "login" props with
                        | none => m.login
                        | some l => some (.str l)),
              devkit1 := (match List.lookup "devkit1" props with
                          | none => m.devkit1
                          | some d => (shlexSplit d).map Json.str) }
      else .ok { m with settings := newSettings }

/-- `ServiceListener.update_service_info`.  No `txtvers` check happens on
this path; the version veto lives only in `add_service`. -/
def update_service_info (st : ListenerState) (query : String → Option SvcInfo)
    (m : Machine) : Except ResolveError Machine :=
  match serviceInfoFor st query m.name with
  | none => .error (.machineNotFound ("mDNS devkit service " ++ m.name ++ " not found"))
  | some info =>
    match info.addresses with
    | [] =>
      .error (.machineNotFound
        ("DNS-SD instance " ++ m.name ++ " did not publish an IP address yet."))
    | a :: _ =>
      match applyProps info.properties { m with address := inet_ntoa a } with
      | .error e => .error e
      | .ok m2 => .ok { m2 with normalized_name := normalizeServiceName m.name }

/-- Environment of `resolve_machine`: the global zeroconf listener (if
configured), the synchronous zeroconf query, and the two optional HTTP
metadata resources keyed by address and port.  `none` HTTP results model the
network failures the code swallows (`socket.error`, of which
`urllib.error.HTTPError` is a subclass). -/
structure ResolveEnv where
  listener : Option ListenerState
  query : String → Option SvcInfo
  httpProperties : String → Nat → Option String
  httpLoginName : String → Nat → Option String

/-- `MachineNameType`. -/
inductive MachineNameType where
  | GUESS
  | ADDRESS
  | SERVICE_NAME
deriving DecidableEq

/-- The suffix stripping of the `SERVICE_NAME` branch: drop trailing dots,
then an optional `.local`, then an optional `._steamos-devkit._tcp`. -/
def stripSuffixForms (name : String) : String :=
  let n1 := rstripDot name
  let n2 := if strEndsWith n1 ("." ++ LOCAL_DOMAIN) then
      pyDropEnd n1 ("." ++ LOCAL_DOMAIN).length
    else n1
  if strEndsWith n2 ("." ++ STEAMOS_DEVKIT_SERVICE) then
    pyDropEnd n2 ("." ++ STEAMOS_DEVKIT_SERVICE).length
  else n2

/-- The fully-qualified suffix test of the `GUESS` branch. -/
def endsWithSuffixForms (name : String) : Bool :=
  strEndsWith name ("." ++ STEAM_DEVKIT_TYPE) ||
  strEndsWith name ("." ++ STEAMOS_DEVKIT_SERVICE ++ "." ++ LOCAL_DOMAIN) ||
  strEndsWith name ("." ++ STEAMOS_DEVKIT_SERVICE ++ ".") ||
  strEndsWith name ("." ++ STEAMOS_DEVKIT_SERVICE)

/-- The `SERVICE_NAME` branch of `resolve_machine` up to (excluding) the HTTP
metadata completion. -/
def resolveServicePhase (env : ResolveEnv) (name : String) (devkit1 : List Json)
    (login : Option Json) (http_port : Nat) : Except ResolveError Machine :=
  let machine := initMachine name devkit1 login http_port
  let machine := { machine with name := stripSuffixForms name }
  match env.listener with
  | none => .error (.machineNotFound "Zeroconf service is not configured yet.")
  | some st => update_service_info st env.query machine

/-- The `ADDRESS` branch of `resolve_machine` up to the HTTP metadata
completion: the typed name is kept as `machine.address` and only
`normalized_name` is recomputed. -/
def resolveAddressPhase (name : String) (devkit1 : List Json) (login : Option Json)
    (http_port : Nat) : Machine :=
  let machine := initMachine name devkit1 login http_port
  { machine with normalized_name := normalizeAddress machine.name }

/-- Python `'k' in json_object` on a decoded JSON document (dict key test,
list membership, substring on strings; `TypeError` otherwise). -/
def jsonContains (j : Json) (k : String) : Except ResolveError Bool :=
  match j with
  | .obj fields => .ok (fields.any (fun p => p.1 == k))
  | .arr xs => .ok (xs.any (fun x => match x with | .str s => s == k | _ => false))
  | .str s => .ok (strIn k.data s.data)
  | _ => .error .typeError

/-- Python `json_object['k']` with a string key: only dicts support it. -/
def jsonIndex (j : Json) (k : String) : Except ResolveError Json :=
  match j with
  | .obj fields =>
    (match List.lookup k fields with
     | some v => .ok v
     | none => .error .typeError)
  | _ => .error .typeError

/-- Python `tuple(devkit1)` on a decoded JSON value (preceded by the
`isinstance(devkit1, str)` check that wraps a bare string in a singleton):
lists yield their elements, dicts iterate their keys, other non-iterables
raise `TypeError`. -/
def pyTuple (j : Json) : Except ResolveError (List Json) :=
  match j with
  | .str s => .ok [.str s]
  | .arr xs => .ok xs
  | .obj fields => .ok (fields.map (fun p => Json.str p.1))
  | _ => .error .typeError

/-- The `settings` fill of the `/properties.json` completion: assigned
whenever the key is present (the value must be a string holding JSON). -/
def applySettings (j : Json) (m : Machine) : Except ResolveError Machine :=
  match jsonContains j "settings" with
  | .error e => .error e
  | .ok false => .ok m
  | .ok true =>
    match jsonIndex j "settings" with
    | .error e => .error e
    | .ok (.str s) =>
      (match jsonLoads s with
       | .ok sj => .ok { m with settings := sj }
       | .error e => .error (.jsonError e))
    | .ok _ => .error .typeError

/-- The `devkit1` fill of the `/properties.json` completion: assigned
whenever the key is present. -/
def applyDevkit1 (j : Json) (m : Machine) : Except ResolveError Machine :=
  match jsonContains j "devkit1" with
  | .error e => .error e
  | .ok false => .ok m
  | .ok true =>
    match jsonIndex j "devkit1" with
    | .error e => .error e
    | .ok v =>
      match pyTuple v with
      | .error e => .error e
      | .ok tup => .ok { m with devkit1 := tup }

/-- The `login` fill of the `/properties.json` completion: assigned whenever
the key is present, regardless of any caller-supplied login. -/
def applyLogin (j : Json) (m : Machine) : Except ResolveError Machine :=
  match jsonContains j "login" with
  | .error e => .error e
  | .ok false => .ok m
  | .ok true =>
    match jsonIndex j "login" with
    | .error e => .error e
    | .ok v => .ok { m with login := some v }

/-- The `/properties.json` fetch of `resolve_machine`: attempted only when a
login or entry point is still wanted; connection failures are swallowed and
leave the machine untouched; a malformed body is a fatal decode error. -/
def fetchProps (env : ResolveEnv) (need_login need_devkit1 : Bool) (m : Machine) :
    Except ResolveError Machine :=
  if (m.login.isNone || m.devkit1.isEmpty) && (need_login || need_devkit1) then
    match env.httpProperties m.address m.http_port with
    | none => .ok m
    | some body =>
      match jsonLoads body with
      | .error e => .error (.jsonError e)
      | .ok j =>
        match applySettings j m with
        | .error e => .error e
        | .ok m1 =>
          match applyDevkit1 j m1 with
          | .error e => .error e
          | .ok m2 => applyLogin j m2
  else .ok m

/-- The legacy `/login-name` fetch: attempted only when a login is still
required and unset; every failure is logged and ignored. -/
def fetchLoginName (env : ResolveEnv) (need_login : Bool) (m : Machine) : Machine :=
  if m.login.isNone && need_login then
    match env.httpLoginName m.address m.http_port with
    | none => m
    | some body => { m with login := some (.str (pyStrip body)) }
  else m

/-- The HTTP metadata completion tail shared by every `resolve_machine`
branch. -/
def complete_metadata (env : ResolveEnv) (need_login need_devkit1 : Bool)
    (m : Machine) : Except ResolveError Machine :=
  match fetchProps env need_login need_devkit1 m with
  | .error e => .error e
  | .ok m1 => .ok (fetchLoginName env need_login m1)

/-- `resolve_machine`.  The `GUESS` branch re-enters as `SERVICE_NAME` for
fully-qualified names, as `ADDRESS` for dotted names, and otherwise tries
`SERVICE_NAME`, falling back — on `MachineNotFoundError` only — to treating
the input as an address with the initial machine record unchanged. -/
def resolve_machine (env : ResolveEnv) (name : String) (devkit1 : List Json)
    (login : Option Json) (need_login need_devkit1 : Bool)
    (name_type : MachineNameType) (http_port : Nat) : Except ResolveError Machine :=
  match name_type with
  | .SERVICE_NAME =>
    (match resolveServicePhase env name devkit1 login http_port with
     | .error e => .error e
     | .ok m => complete_metadata env need_login need_devkit1 m)
  | .ADDRESS =>
    complete_metadata env need_login need_devkit1
      (resolveAddressPhase name devkit1 login http_port)
  | .GUESS =>
    if endsWithSuffixForms name then
      (match resolveServicePhase env name devkit1 login http_port with
       | .error e => .error e
       | .ok m => complete_metadata env need_login need_devkit1 m)
    else if strContainsChar name '.' then
      complete_metadata env need_login need_devkit1
        (resolveAddressPhase name devkit1 login http_port)
    else
      match resolveServicePhase env name devkit1 login http_port with
      | .ok m => complete_metadata env need_login need_devkit1 m
      | .error (.machineNotFound _) =>
        complete_metadata env need_login need_devkit1
          (initMachine name devkit1 login http_port)
      | .error e => .error e

/-! ## Execution channel (`DevkitClient.ssh_command`, blocking path) -/

/-- Outcome of the blocking `ssh_command` path: the parsed JSON payload, a
`subprocess.CalledProcessError` carrying command and exit code, or the
re-raised JSON decode failure stashed by the stdout drain thread. -/
inductive SshOutcome where
  | payload (j : Json)
  | commandFailed (command : String) (code : Nat)
  | parseFailure (msg : String)

/-- `DevkitClient.machine_readable_command_reader_thread`: the stdout drain
worker parses the whole stream as JSON and stashes either the document or
the decoding exception in `self.ssh_result`. -/
def machine_readable_command_reader (stdoutText : String) : Except String Json :=
  jsonLoads stdoutText

/-- `DevkitClient.ssh_command` with no `stream_output_to`: after joining both
drain threads, a non-zero exit status raises `CalledProcessError` first;
otherwise a stashed decode exception is re-raised; otherwise the parsed
payload is returned. -/
def ssh_command_blocking (command : String) (exitStatus : Nat) (stdoutText : String) :
    SshOutcome :=
  let sshResult := machine_readable_command_reader stdoutText
  if exitStatus ≠ 0 then .commandFailed command exitStatus
  else
    match sshResult with
    | .ok j => .payload j
    | .error e => .parseFailure e

/-! ## Sync engine (`DevkitClient.rsync_transfer`) -/

/-- Environment of `rsync_transfer` on a POSIX host (`sys.platform` is not
`win32`, so no cygwin path conversion runs): tool paths discovered at client
construction and the local-directory test. -/
structure RsyncEnv where
  isdir : String → Bool
  ssh : String
  rsync : String
  keypath : String
  ssh_known_hosts : Option String

/-- Modelled from the spec: `shlex.quote` from the Python standard library
(an external collaborator).  Safe strings pass through; anything else is
wrapped in single quotes with embedded single quotes escaped. -/
def shlexQuote (s : String) : String :=
  let squote : Char := Char.ofNat 39
  if s = "" then ⟨[squote, squote]⟩
  else if s.data.all (fun c =>
      c.isAlphanum || ['_', '@', '%', '+', '=', ':', ',', '.', '/', '-'].contains c) then s
  else
    ⟨[squote] ++
      s.data.foldr (fun c acc =>
        if c = squote then [squote, '"', squote, '"', squote] ++ acc else c :: acc) [] ++
      [squote]⟩

/-- The rsync command line built by `rsync_transfer`. -/
def rsync_cmd (env : RsyncEnv) (localdir user ipaddress remotedir : String)
    (delete_extraneous skip_newer_files verify_checksums upload : Bool)
    (extra_cmdline : List String) : List String :=
  let ssh_known_hosts := match env.ssh_known_hosts with
    | some kh =>
      if kh = "" then ""
      else "-o UserKnownHostsFile=" ++ shlexQuote (shlexQuote kh)
    | none => ""
  let rsh_cmd := shlexQuote env.ssh ++ " " ++ ssh_known_hosts ++
    " -o StrictHostKeyChecking=no -i " ++ shlexQuote env.keypath
  let cmd := [env.rsync, "-av", "--chmod=Du=rwx,Dgo=rx,Fu=rwx,Fog=rx", "-e", rsh_cmd]
  let cmd := cmd ++
    (if delete_extraneous then ["--delete", "--delete-excluded", "--delete-delay"] else [])
  let cmd := cmd ++ (if skip_newer_files then ["--update"] else [])
  let cmd := cmd ++ (if verify_checksums then ["--checksum"] else [])
  let cmd := cmd ++ extra_cmdline
  let upload_cmd := [pyRstrip localdir '/' ++ "/",
                     user ++ "@" ++ ipaddress ++ ":" ++ pyRstrip remotedir '/' ++ "/"]
  cmd ++ (if upload then upload_cmd else upload_cmd.reverse)

/-- `DevkitClient.rsync_transfer`: the returned pair records every spawned
subprocess command line (the observable side effect) together with the
call's result; `retcode` is the exit status of the spawned transfer.  A
missing local directory raises before anything is spawned. -/
def rsync_transfer (env : RsyncEnv) (localdir user ipaddress remotedir : String)
    (delete_extraneous skip_newer_files verify_checksums upload : Bool)
    (extra_cmdline : List String) (retcode : Nat) :
    List (List String) × Except String Nat :=
  if ¬ env.isdir localdir then
    ([], .error ("Source directory does not exist: " ++ localdir))
  else
    let cmd := rsync_cmd env localdir user ipaddress remotedir
      delete_extraneous skip_newer_files verify_checksums upload extra_cmdline
    ([cmd], if retcode ≠ 0 then .error "CalledProcessError" else .ok retcode)

/-! ## Screenshot polling (`screenshot`) -/

/-- Arguments of `screenshot` relevant to the poll/fetch logic. -/
structure ShotArgs where
  folder : Option String
  filename : Option String
  do_timestamp : Bool

/-- Environment of the screenshot poll loop.  `poll a` is the
`(exit_status, stdout)` of the `find` probe executed when the `attempts`
counter has just been decremented to `a` (so the first probe sees `a = 99`
and the hundredth sees `a = 0`); `cwd` is `os.getcwd()` and `now` the
formatted `datetime.now()` fallback timestamp. -/
structure ShotEnv where
  poll : Nat → Nat × String
  cwd : String
  now : String

/-- `pathlib.PurePosixPath(p).parts[-1]` for the slash-free-tail paths the
remote `find -maxdepth 1` emits. -/
def lastComponent (p : String) : String :=
  ⟨(p.data.reverse.takeWhile (fun c => c != '/')).reverse⟩

/-- `pathlib.PurePosixPath(name).suffix` on a final path component: the last
dot-extension, empty for dotless names, leading-dot names and trailing-dot
names. -/
def fileSuffix (name : String) : String :=
  let r := name.data.reverse
  let ext := r.takeWhile (fun c => c != '.')
  if ext.length + 1 < r.length ∧ ext ≠ [] then "." ++ (⟨ext.reverse⟩ : String) else ""

/-- The first `re.search('_[0-9-_]*', remote_filename)` match: the first
underscore with the following run of digits, dashes and underscores. -/
def timestampOf (cs : List Char) : Option (List Char) :=
  match cs with
  | [] => none
  | '_' :: rest =>
    some ('_' :: rest.takeWhile (fun c => c.isDigit || c == '-' || c == '_'))
  | _ :: t => timestampOf t

/-- One disambiguation candidate `f-string` `base_i:03suffix`. -/
def shotCandidate (base sfx : String) (i : Nat) : String :=
  base ++ "_" ++ pad3 i ++ sfx

/-- The `while True` search for the first free disambiguated name, fuelled;
`screenshot` runs it with enough fuel for success (see
`firstFreeShot_total`). -/
def firstFreeShot (fs : List String) (base sfx : String) : Nat → Nat → Option String
  | 0, _ => none
  | fuel + 1, i =>
    if shotCandidate base sfx i ∈ fs then firstFreeShot fs base sfx fuel (i + 1)
    else some (shotCandidate base sfx i)

/-- Local-path derivation of `screenshot` before disambiguation: folder,
filename, optional timestamp and suffix.  Path joins follow `pathlib` on the
simple relative names this workflow produces. -/
def shotLocalPath (env : ShotEnv) (args : ShotArgs) (out_text : String) : String :=
  let remote_path : String := ⟨out_text.data.takeWhile (fun c => c != '\n')⟩
  let remote_filename := lastComponent remote_path
  let folder := match args.folder with
    | none => env.cwd
    | some f => if f = "" then env.cwd else f
  let fname := match args.filename with
    | none => remote_filename
    | some f => if f = "" then remote_filename else f
  let sfx := fileSuffix remote_filename
  let filename := dropEndLen fname (fileSuffix fname).length
  if args.do_timestamp then
    let timestamp : String := match timestampOf remote_filename.data with
      | some ts => ⟨ts⟩
      | none => "-" ++ env.now
    folder ++ "/" ++ filename ++ timestamp ++ sfx
  else folder ++ "/" ++ filename ++ sfx

/-- Local-path computation of `screenshot` once a poll reported an artifact:
derive the path, then disambiguate against the existing files `fs`. -/
def computeLocalPath (env : ShotEnv) (args : ShotArgs) (fs : List String)
    (out_text : String) : Option String :=
  let local_path := shotLocalPath env args out_text
  if local_path ∈ fs then
    let sfx2 := fileSuffix (lastComponent local_path)
    let base := pyDropEnd local_path sfx2.length
    firstFreeShot fs base sfx2 (fs.length + 1) 0
  else some local_path

/-- Result of the screenshot workflow: the locally written artifact path (if
any poll succeeded and the download ran) and whether the final
`attempts <= 0` timeout exception fired. -/
structure ShotOutcome where
  downloaded : Option String
  timedOut : Bool

/-- The poll loop of `screenshot`: `attempts` counts down from 100; each
iteration probes once, and on a hit computes the local path, downloads, and
leaves the loop — after which the code still raises the timeout exception
whenever the counter has reached zero.  A `downloaded := none` hit is the
(provably unreachable) disambiguation fuel exhaustion. -/
def screenshotLoop (env : ShotEnv) (args : ShotArgs) (fs : List String) :
    Nat → ShotOutcome
  | 0 => { downloaded := none, timedOut := true }
  | a + 1 =>
    let pr := env.poll a
    if pr.1 = 0 ∧ pr.2 ≠ "" then
      { downloaded := computeLocalPath env args fs pr.2, timedOut := a = 0 }
    else screenshotLoop env args fs a

/-- `screenshot`, from the first poll on (the pre-clean and trigger commands
precede the loop and do not affect it). -/
def screenshot (env : ShotEnv) (args : ShotArgs) (fs : List String) : ShotOutcome :=
  screenshotLoop env args fs 100

/-! ## Auxiliary definitions for the statements below -/

/-- Value of a most-significant-first decimal digit list. -/
def valL (l : List Nat) : Nat := l.foldl (fun a d => 10 * a + d) 0

/-- No usable address can be produced for a (stripped) service name: the
zeroconf listener is missing, or neither the cache nor the synchronous query
yields a record, or the record carries no address. -/
def noAddressAvailable (env : ResolveEnv) (sname : String) : Prop :=
  ∀ st, env.listener = some st →
    ∀ info, serviceInfoFor st env.query sname = some info → info.addresses = []

/-- An environment with no zeroconf listener and every network interaction
failing. -/
def offlineEnv : ResolveEnv :=
  { listener := none, query := fun _ => none,
    httpProperties := fun _ _ => none, httpLoginName := fun _ _ => none }

/-- A discovery record whose `txtvers` is not the supported version. -/
def mismatchInfo : SvcInfo :=
  { addresses := [(10, 0, 0, 5)], port := 32000, properties := [("txtvers", "2")] }

/-- An environment whose synchronous zeroconf query returns the
version-mismatched record, with an empty listener cache. -/
def mismatchEnv : ResolveEnv :=
  { listener := some { devkits := [], events := [] },
    query := fun _ => some mismatchInfo,
    httpProperties := fun _ _ => none, httpLoginName := fun _ _ => none }

/-- An environment whose `/properties.json` resource reports a login. -/
def loginOverwriteEnv : ResolveEnv :=
  { listener := none, query := fun _ => none,
    httpProperties := fun _ _ => some "\x7b\"login\":\"other\"\x7d",
    httpLoginName := fun _ _ => none }

/-- A well-formed discovery record with no properties. -/
def plainInfo : SvcInfo := { addresses := [(1, 2, 3, 4)], port := 32000, properties := [] }

/-- An environment that discovers `plainInfo` for every query. -/
def plainEnv : ResolveEnv :=
  { listener := some { devkits := [], events := [] },
    query := fun _ => some plainInfo,
    httpProperties := fun _ _ => none, httpLoginName := fun _ _ => none }

/-- A screenshot environment in which only the hundredth poll (counter value
zero) reports the artifact. -/
def boundaryShotEnv : ShotEnv :=
  { poll := fun a => if a = 0 then (0, "/tmp/gamescope_x.png\n") else (1, ""),
    cwd := "/cwd", now := "NOW" }

/-- A screenshot environment in which the third poll (counter value 97)
first reports the artifact. -/
def thirdPollShotEnv : ShotEnv :=
  { poll := fun a => if a ≤ 97 then (0, "/tmp/gamescope_20240101.png\n") else (1, ""),
    cwd := "/cwd", now := "NOW" }

/-- Screenshot arguments: fixed folder, default filename, no timestamping. -/
def plainShotArgs : ShotArgs := { folder := some "/shots", filename := none, do_timestamp := false }

/-- A sync environment in which only `/src` exists locally. -/
def plainRsyncEnv : RsyncEnv :=
  { isdir := fun d => d = "/src", ssh := "/usr/bin/ssh", rsync := "rsync",
    keypath := "/key path", ssh_known_hosts := none }

/-- The machine record produced by resolving `"Foo.local."` as a service name
against `plainEnv`. -/
def fooMachine : Machine :=
  { address := "1.2.3.4", name := "Foo", normalized_name := "foo", login := none,
    devkit1 := [], settings := .obj [], http_port := 32000 }

/-- A machine with a caller-supplied login and entry point. -/
def loggedMachine : Machine :=
  { fooMachine with login := some (.str "me"), devkit1 := [.str "keep"] }

/-! ## Basic lemmas on the string primitives -/

theorem string_mk_data (l : List Char) : (⟨l⟩ : String).data = l := rfl

theorem string_ext_data {a b : String} (h : a.data = b.data) : a = b :=
  congrArg String.mk h

theorem asciiLower_fixed (c : Char)
    (h : lowerPairs.find? (fun p => p.1 == c) = none) : asciiLower c = c := by
  unfold asciiLower
  rw [h]
  rfl

theorem asciiLower_mapped {c : Char} {p : Char × Char}
    (h : lowerPairs.find? (fun q => q.1 == c) = some p) : asciiLower c = p.2 := by
  unfold asciiLower
  rw [h]
  rfl

theorem asciiLower_idem (c : Char) : asciiLower (asciiLower c) = asciiLower c := by
  have key : ∀ p ∈ lowerPairs, asciiLower p.2 = p.2 := by decide
  cases h : lowerPairs.find? (fun p => p.1 == c) with
  | none =>
    rw [asciiLower_fixed c h]
    exact asciiLower_fixed c h
  | some p =>
    rw [asciiLower_mapped h]
    exact key p (List.mem_of_find?_eq_some h)

theorem asciiLower_dot_iff (c : Char) : (asciiLower c == '.') = (c == '.') := by
  have key : ∀ p ∈ lowerPairs, p.2 ≠ '.' ∧ p.1 ≠ '.' := by decide
  cases h : lowerPairs.find? (fun p => p.1 == c) with
  | none => rw [asciiLower_fixed c h]
  | some p =>
    rw [asciiLower_mapped h]
    have hc : p.1 = c := by
      have := List.find?_some h
      simpa using this
    have hk := key p (List.mem_of_find?_eq_some h)
    have h2 : (p.2 == '.') = false := by simpa using hk.1
    have h1 : (c == '.') = false := by
      rw [← hc]
      simpa using hk.2
    rw [h2, h1]

theorem dropWhile_idem (p : α → Bool) (l : List α) :
    List.dropWhile p (List.dropWhile p l) = List.dropWhile p l := by
  induction l with
  | nil => rfl
  | cons a t ih =>
    by_cases h : p a = true
    · simp [List.dropWhile_cons, h, ih]
    · simp [List.dropWhile_cons, h]

theorem dropWhile_map_comm (f : α → α) (p : α → Bool) (hp : ∀ a, p (f a) = p a)
    (l : List α) : List.dropWhile p (l.map f) = (List.dropWhile p l).map f := by
  induction l with
  | nil => rfl
  | cons a t ih =>
    by_cases h : p a = true
    · simp [List.dropWhile_cons, hp a, h, ih]
    · simp [List.dropWhile_cons, hp a, h]

theorem pyLower_data (s : String) : (pyLower s).data = s.data.map asciiLower := rfl

theorem rstripDot_data (s : String) :
    (rstripDot s).data = (s.data.reverse.dropWhile (fun x => x == '.')).reverse := rfl

theorem rstripDot_idem (s : String) : rstripDot (rstripDot s) = rstripDot s := by
  apply string_ext_data
  simp only [rstripDot_data, List.reverse_reverse, dropWhile_idem]

theorem pyLower_idem (s : String) : pyLower (pyLower s) = pyLower s := by
  apply string_ext_data
  simp only [pyLower_data, List.map_map]
  exact List.map_congr_left (fun a _ => asciiLower_idem a)

theorem pyLower_rstripDot_comm (s : String) :
    pyLower (rstripDot s) = rstripDot (pyLower s) := by
  apply string_ext_data
  simp only [pyLower_data, rstripDot_data]
  rw [← List.map_reverse]
  rw [dropWhile_map_comm asciiLower (fun x => x == '.') asciiLower_dot_iff]
  rw [List.map_reverse]

theorem nfcChar_ascii {c : Char} (h : isAsciiChar c = true) : nfcChar c = c := by
  have hc : c.toNat < 128 := of_decide_eq_true h
  unfold nfcChar
  rw [if_neg, if_neg, if_neg]
  · intro he
    rw [he] at hc
    exact absurd hc (by decide)
  · intro he
    rw [he] at hc
    exact absurd hc (by decide)
  · intro he
    rw [he] at hc
    exact absurd hc (by decide)

theorem nfc_ascii {s : String} (h : isAsciiString s = true) : nfc s = s := by
  apply string_ext_data
  have hall : ∀ c ∈ s.data, isAsciiChar c = true := List.all_eq_true.mp h
  calc (nfc s).data = s.data.map nfcChar := rfl
    _ = s.data.map id := List.map_congr_left (fun c hc => nfcChar_ascii (hall c hc))
    _ = s.data := List.map_id s.data

theorem isAscii_asciiLower {c : Char} (h : isAsciiChar c = true) :
    isAsciiChar (asciiLower c) = true := by
  cases hf : lowerPairs.find? (fun p => p.1 == c) with
  | none =>
    rw [asciiLower_fixed c hf]
    exact h
  | some p =>
    rw [asciiLower_mapped hf]
    have hlow : ∀ q ∈ lowerPairs, isAsciiChar q.2 = true := by decide
    exact hlow p (List.mem_of_find?_eq_some hf)

theorem isAsciiString_pyLower {s : String} (h : isAsciiString s = true) :
    isAsciiString (pyLower s) = true := by
  unfold isAsciiString at h ⊢
  rw [pyLower_data, List.all_map]
  refine List.all_eq_true.mpr (fun c hc => ?_)
  exact isAscii_asciiLower (List.all_eq_true.mp h c hc)

theorem mem_of_mem_dropWhileP {p : α → Bool} {l : List α} {c : α}
    (h : c ∈ List.dropWhile p l) : c ∈ l := by
  induction l with
  | nil => exact absurd h (List.not_mem_nil c)
  | cons a t ih =>
    rw [List.dropWhile_cons] at h
    by_cases hp : p a = true
    · rw [if_pos hp] at h
      exact List.mem_cons_of_mem a (ih h)
    · rw [if_neg hp] at h
      exact h

theorem isAsciiString_rstripDot {s : String} (h : isAsciiString s = true) :
    isAsciiString (rstripDot s) = true := by
  unfold isAsciiString at h ⊢
  rw [rstripDot_data]
  refine List.all_eq_true.mpr (fun c hc => ?_)
  rw [List.mem_reverse] at hc
  have hc2 : c ∈ s.data.reverse := mem_of_mem_dropWhileP hc
  rw [List.mem_reverse] at hc2
  exact List.all_eq_true.mp h c hc2

theorem normalizeServiceName_idem_ascii {s : String} (h : isAsciiString s = true) :
    normalizeServiceName (normalizeServiceName s) = normalizeServiceName s := by
  have h1 : isAsciiString (rstripDot (pyLower s)) = true :=
    isAsciiString_rstripDot (isAsciiString_pyLower h)
  unfold normalizeServiceName
  rw [nfc_ascii h1, pyLower_rstripDot_comm, pyLower_idem, rstripDot_idem]
  exact nfc_ascii h1

theorem normalizeAddress_idem (s : String) :
    normalizeAddress (normalizeAddress s) = normalizeAddress s := by
  unfold normalizeAddress
  rw [pyLower_rstripDot_comm, pyLower_idem, rstripDot_idem]

/-! ## Decimal rendering lemmas -/

theorem valL_append_single (xs : List Nat) (d : Nat) :
    valL (xs ++ [d]) = 10 * valL xs + d := by
  simp [valL, List.foldl_append]

theorem valL_digits10Aux (fuel n : Nat) (h : n ≤ fuel) :
    valL (digits10Aux fuel n) = n := by
  induction fuel generalizing n with
  | zero =>
    have : n = 0 := by omega
    subst this
    simp [digits10Aux, valL]
  | succ fuel ih =>
    rw [digits10Aux]
    by_cases h10 : n < 10
    · simp [h10, valL]
    · have hdiv : n / 10 < n := Nat.div_lt_self (by omega) (by omega)
      simp only [h10, if_false]
      rw [valL_append_single, ih (n / 10) (by omega)]
      omega

theorem valL_digits10 (n : Nat) : valL (digits10 n) = n :=
  valL_digits10Aux n n le_rfl

theorem digits10Aux_ne_nil (fuel n : Nat) : digits10Aux fuel n ≠ [] := by
  cases fuel with
  | zero => simp [digits10Aux]
  | succ fuel =>
    rw [digits10Aux]
    by_cases h10 : n < 10
    · simp [h10]
    · simp [h10]

theorem digits10_ne_nil (n : Nat) : digits10 n ≠ [] := digits10Aux_ne_nil n n

theorem digits10Aux_lt_ten (fuel n : Nat) (h : n ≤ fuel) :
    ∀ d ∈ digits10Aux fuel n, d < 10 := by
  induction fuel generalizing n with
  | zero =>
    have : n = 0 := by omega
    subst this
    intro d hd
    simp [digits10Aux] at hd
    omega
  | succ fuel ih =>
    rw [digits10Aux]
    by_cases h10 : n < 10
    · intro d hd
      simp [h10] at hd
      omega
    · have hdiv : n / 10 < n := Nat.div_lt_self (by omega) (by omega)
      simp only [h10, if_false]
      intro d hd
      rw [List.mem_append] at hd
      cases hd with
      | inl h1 => exact ih (n / 10) (by omega) d h1
      | inr h2 =>
        simp at h2
        omega

theorem digits10_lt_ten (n : Nat) : ∀ d ∈ digits10 n, d < 10 :=
  digits10Aux_lt_ten n n le_rfl

theorem digits10Aux_head_ne_zero (fuel n : Nat) (h : n ≤ fuel) (hn : 1 ≤ n) :
    ∀ d t, digits10Aux fuel n = d :: t → d ≠ 0 := by
  induction fuel generalizing n with
  | zero => omega
  | succ fuel ih =>
    rw [digits10Aux]
    by_cases h10 : n < 10
    · intro d t he
      simp [h10] at he
      omega
    · have hdiv : n / 10 < n := Nat.div_lt_self (by omega) (by omega)
      have hq : 1 ≤ n / 10 := (Nat.one_le_div_iff (by omega)).mpr (by omega)
      simp only [h10, if_false]
      intro d t he
      cases hh : digits10Aux fuel (n / 10) with
      | nil => exact absurd hh (digits10Aux_ne_nil _ _)
      | cons a b =>
        rw [hh, List.cons_append] at he
        have hda : d = a := by
          have := List.cons.inj he
          omega
        rw [hda]
        exact ih (n / 10) (by omega) hq a b hh

theorem digits10_head_ne_zero (n : Nat) (hn : 1 ≤ n) :
    ∀ d t, digits10 n = d :: t → d ≠ 0 :=
  digits10Aux_head_ne_zero n n le_rfl hn

theorem digitChar_inj : ∀ d1 < 10, ∀ d2 < 10, digitChar d1 = digitChar d2 → d1 = d2 := by
  decide

theorem digitChar_ne_zeroChar : ∀ d < 10, d ≠ 0 → digitChar d ≠ '0' := by decide

theorem map_digitChar_inj (l1 : List Nat) :
    ∀ l2 : List Nat, (∀ d ∈ l1, d < 10) → (∀ d ∈ l2, d < 10) →
      l1.map digitChar = l2.map digitChar → l1 = l2 := by
  induction l1 with
  | nil =>
    intro l2 _ _ h
    cases l2 with
    | nil => rfl
    | cons a t => simp at h
  | cons a t ih =>
    intro l2 h1 h2 h
    cases l2 with
    | nil => simp at h
    | cons b u =>
      simp only [List.map_cons, List.cons.injEq] at h
      have ha : a = b := digitChar_inj a (h1 a (by simp)) b (h2 b (by simp)) h.1
      have ht : t = u := ih u (fun d hd => h1 d (by simp [hd]))
        (fun d hd => h2 d (by simp [hd])) h.2
      rw [ha, ht]

theorem reprL_inj {m n : Nat} (h : reprL m = reprL n) : m = n := by
  have hd : digits10 m = digits10 n :=
    map_digitChar_inj (digits10 m) (digits10 n) (digits10_lt_ten m) (digits10_lt_ten n) h
  have := congrArg valL hd
  rwa [valL_digits10, valL_digits10] at this

theorem reprL_ne_nil (n : Nat) : reprL n ≠ [] := by
  unfold reprL
  intro h
  exact digits10_ne_nil n (List.map_eq_nil_iff.mp h)

theorem reprL_length_pos (n : Nat) : 1 ≤ (reprL n).length := by
  cases hh : reprL n with
  | nil => exact absurd hh (reprL_ne_nil n)
  | cons a t => simp

theorem reprL_head_ne_zeroChar (n : Nat) (hn : 1 ≤ n) :
    ∀ c t, reprL n = c :: t → c ≠ '0' := by
  intro c t h
  cases hh : digits10 n with
  | nil => exact absurd hh (digits10_ne_nil n)
  | cons d u =>
    unfold reprL at h
    rw [hh] at h
    simp only [List.map_cons, List.cons.injEq] at h
    rw [← h.1]
    exact digitChar_ne_zeroChar d (digits10_lt_ten n d (by rw [hh]; simp))
      (digits10_head_ne_zero n hn d u hh)

theorem pad3L_length_lt_false (m n : Nat) (hlt : (reprL m).length < (reprL n).length)
    (h : pad3L (reprL m) = pad3L (reprL n)) : False := by
  have lm1 : 1 ≤ (reprL m).length := reprL_length_pos m
  have hlen : (3 - (reprL m).length) + (reprL m).length
      = (3 - (reprL n).length) + (reprL n).length := by
    have := congrArg List.length h
    simpa [pad3L] using this
  have hk : 3 - (reprL m).length
      = (3 - (reprL n).length) + ((reprL n).length - (reprL m).length) := by omega
  unfold pad3L at h
  rw [hk, List.replicate_add, List.append_assoc] at h
  have h2 := List.append_cancel_left h
  obtain ⟨k', hk'⟩ : ∃ k', (reprL n).length - (reprL m).length = k' + 1 :=
    ⟨(reprL n).length - (reprL m).length - 1, by omega⟩
  rw [hk', List.replicate_succ] at h2
  rcases Nat.eq_zero_or_pos n with hn0 | hn1
  · subst hn0
    have hb : (reprL 0).length = 1 := rfl
    omega
  · cases hh : reprL n with
    | nil => exact absurd hh (reprL_ne_nil n)
    | cons c t =>
      rw [hh] at h2
      have hc : '0' = c := (List.cons.inj h2).1
      exact reprL_head_ne_zeroChar n hn1 c t hh hc.symm

theorem pad3L_reprL_inj {m n : Nat} (h : pad3L (reprL m) = pad3L (reprL n)) : m = n := by
  rcases Nat.lt_trichotomy (reprL m).length (reprL n).length with hlt | heq | hgt
  · exact absurd h (fun hc => pad3L_length_lt_false m n hlt hc)
  · unfold pad3L at h
    rw [heq] at h
    exact reprL_inj (List.append_cancel_left h)
  · exact absurd h.symm (fun hc => pad3L_length_lt_false n m hgt hc)

theorem pad3_inj {m n : Nat} (h : pad3 m = pad3 n) : m = n :=
  pad3L_reprL_inj (congrArg String.data h)

/-! ## Screenshot disambiguation lemmas -/

theorem str_data_append (a b : String) : (a ++ b).data = a.data ++ b.data := by
  cases a
  cases b
  rfl

theorem shotCandidate_inj {base sfx : String} {i j : Nat}
    (h : shotCandidate base sfx i = shotCandidate base sfx j) : i = j := by
  unfold shotCandidate at h
  have hd := congrArg String.data h
  simp only [str_data_append] at hd
  have h1 := List.append_cancel_right hd
  have h2 := List.append_cancel_left h1
  exact pad3_inj (string_ext_data h2)

theorem firstFreeShot_not_mem (fs : List String) (base sfx : String) :
    ∀ fuel i p, firstFreeShot fs base sfx fuel i = some p → p ∉ fs := by
  intro fuel
  induction fuel with
  | zero => intro i p h; simp [firstFreeShot] at h
  | succ fuel ih =>
    intro i p h
    rw [firstFreeShot] at h
    by_cases hc : shotCandidate base sfx i ∈ fs
    · rw [if_pos hc] at h
      exact ih (i + 1) p h
    · rw [if_neg hc] at h
      cases h
      exact hc

theorem firstFreeShot_total (fs : List String) (base sfx : String) :
    ∀ fuel start, (∃ i, start ≤ i ∧ i < start + fuel ∧ shotCandidate base sfx i ∉ fs) →
      ∃ p, firstFreeShot fs base sfx fuel start = some p := by
  intro fuel
  induction fuel with
  | zero =>
    rintro start ⟨i, h1, h2, _⟩
    omega
  | succ fuel ih =>
    rintro start ⟨i, h1, h2, h3⟩
    rw [firstFreeShot]
    by_cases hc : shotCandidate base sfx start ∈ fs
    · rw [if_pos hc]
      have hne : i ≠ start := fun he => h3 (he ▸ hc)
      exact ih (start + 1) ⟨i, by omega, by omega, h3⟩
    · rw [if_neg hc]
      exact ⟨_, rfl⟩

theorem exists_free_candidate (fs : List String) (base sfx : String) :
    ∃ i, i ≤ fs.length ∧ shotCandidate base sfx i ∉ fs := by
  by_contra hcon
  push_neg at hcon
  have hsub : (Finset.range (fs.length + 1)).image (shotCandidate base sfx) ⊆ fs.toFinset := by
    intro p hp
    simp only [Finset.mem_image, Finset.mem_range] at hp
    obtain ⟨i, hi, rfl⟩ := hp
    rw [List.mem_toFinset]
    exact hcon i (by omega)
  have hcard := Finset.card_le_card hsub
  rw [Finset.card_image_of_injOn (fun a _ b _ hab => shotCandidate_inj hab),
    Finset.card_range] at hcard
  have := fs.toFinset_card_le
  omega

theorem computeLocalPath_some_fresh (env : ShotEnv) (args : ShotArgs)
    (fs : List String) (out : String) :
    ∃ p, computeLocalPath env args fs out = some p ∧ p ∉ fs := by
  unfold computeLocalPath
  by_cases hmem : shotLocalPath env args out ∈ fs
  · simp only [hmem, if_true]
    obtain ⟨i, hi, hfree⟩ := exists_free_candidate fs
      (pyDropEnd (shotLocalPath env args out)
        (fileSuffix (lastComponent (shotLocalPath env args out))).length)
      (fileSuffix (lastComponent (shotLocalPath env args out)))
    obtain ⟨p, hp⟩ := firstFreeShot_total fs _ _ (fs.length + 1) 0 ⟨i, by omega, by omega, hfree⟩
    exact ⟨p, hp, firstFreeShot_not_mem fs _ _ _ _ p hp⟩
  · simp only [hmem, if_false]
    exact ⟨_, rfl, hmem⟩

theorem screenshotLoop_found (env : ShotEnv) (args : ShotArgs) (fs : List String) :
    ∀ n, (∃ a, 1 ≤ a ∧ a < n ∧ (env.poll a).1 = 0 ∧ (env.poll a).2 ≠ "") →
      ∃ p, (screenshotLoop env args fs n).downloaded = some p ∧ p ∉ fs ∧
        (screenshotLoop env args fs n).timedOut = false := by
  intro n
  induction n with
  | zero =>
    rintro ⟨a, h1, h2, _⟩
    omega
  | succ m ih =>
    rintro ⟨a, h1, h2, h3, h4⟩
    rw [screenshotLoop]
    by_cases hf : (env.poll m).1 = 0 ∧ (env.poll m).2 ≠ ""
    · rw [if_pos hf]
      obtain ⟨p, hp, hfree⟩ := computeLocalPath_some_fresh env args fs (env.poll m).2
      have hm : m ≠ 0 := by
        intro hm0
        subst hm0
        omega
      exact ⟨p, hp, hfree, by simp [hm]⟩
    · rw [if_neg hf]
      have ham : a ≠ m := by
        intro he
        exact hf (he ▸ ⟨h3, h4⟩)
      exact ih ⟨a, h1, by omega, h3, h4⟩

/-! ## Listener map lemmas -/

theorem lookup_dictSet_self (l : List (String × SvcInfo)) (k : String) (v : SvcInfo) :
    List.lookup k (dictSet l k v) = some v := by
  induction l with
  | nil => simp [dictSet]
  | cons p t ih =>
    obtain ⟨k', v'⟩ := p
    by_cases h : k' = k
    · simp [dictSet, h]
    · simp only [dictSet, if_neg h]
      rw [List.lookup_cons]
      have : (k == k') = false := by
        simp
        exact fun he => h he.symm
      rw [this]
      exact ih

theorem dictDel_dictSet (l : List (String × SvcInfo)) (k : String) (v : SvcInfo)
    (h : List.lookup k l = none) : dictDel (dictSet l k v) k = l := by
  induction l with
  | nil => simp [dictSet, dictDel]
  | cons p t ih =>
    obtain ⟨k', v'⟩ := p
    rw [List.lookup_cons] at h
    by_cases hk : (k == k') = true
    · rw [hk] at h
      simp at h
    · rw [Bool.not_eq_true] at hk
      rw [hk] at h
      have hne : k' ≠ k := by
        simp at hk
        exact fun he => hk he.symm
      simp only [dictSet, if_neg hne, dictDel, if_neg hne]
      rw [ih h]

/-! ## Machine-field frame lemmas -/

theorem applyProps_frame {props : List (String × String)} {m r : Machine}
    (h : applyProps props m = .ok r) :
    r.address = m.address ∧ r.name = m.name ∧
      r.normalized_name = m.normalized_name ∧ r.http_port = m.http_port := by
  unfold applyProps at h
  split at h
  · cases h
    exact ⟨rfl, rfl, rfl, rfl⟩
  · split at h
    · cases h
    · split at h
      · cases h
        exact ⟨rfl, rfl, rfl, rfl⟩
      · cases h
        exact ⟨rfl, rfl, rfl, rfl⟩

theorem applyProps_login_frame {props : List (String × String)} {m r : Machine}
    (hl : m.login.isNone = false) (h : applyProps props m = .ok r) :
    r.login = m.login ∧ r.devkit1 = m.devkit1 := by
  unfold applyProps at h
  split at h
  · cases h
    exact ⟨rfl, rfl⟩
  · split at h
    · cases h
    · rw [hl] at h
      simp only [Bool.false_eq_true, if_false] at h
      cases h
      exact ⟨rfl, rfl⟩

theorem update_service_info_ok {st : ListenerState} {q : String → Option SvcInfo}
    {m r : Machine} (h : update_service_info st q m = .ok r) :
    r.normalized_name = normalizeServiceName m.name ∧ r.name = m.name ∧
      r.http_port = m.http_port ∧
      ∃ info a rest, serviceInfoFor st q m.name = some info ∧
        info.addresses = a :: rest ∧ r.address = inet_ntoa a := by
  unfold update_service_info at h
  split at h
  · cases h
  · rename_i info hinfo
    split at h
    · cases h
    · rename_i a rest haddr
      split at h
      · cases h
      · rename_i m2 happly
        cases h
        have hf := applyProps_frame happly
        exact ⟨rfl, hf.2.1, hf.2.2.2, info, a, rest, hinfo, haddr, hf.1⟩

theorem applySettings_frame {j : Json} {m r : Machine} (h : applySettings j m = .ok r) :
    r.address = m.address ∧ r.name = m.name ∧ r.normalized_name = m.normalized_name ∧
      r.http_port = m.http_port ∧ r.login = m.login ∧ r.devkit1 = m.devkit1 := by
  unfold applySettings at h
  split at h
  · cases h
  · cases h
    exact ⟨rfl, rfl, rfl, rfl, rfl, rfl⟩
  · split at h
    · cases h
    · split at h
      · cases h
        exact ⟨rfl, rfl, rfl, rfl, rfl, rfl⟩
      · cases h
    · cases h

theorem applyDevkit1_frame {j : Json} {m r : Machine} (h : applyDevkit1 j m = .ok r) :
    r.address = m.address ∧ r.name = m.name ∧ r.normalized_name = m.normalized_name ∧
      r.http_port = m.http_port ∧ r.login = m.login := by
  unfold applyDevkit1 at h
  split at h
  · cases h
  · cases h
    exact ⟨rfl, rfl, rfl, rfl, rfl⟩
  · split at h
    · cases h
    · split at h
      · cases h
      · cases h
        exact ⟨rfl, rfl, rfl, rfl, rfl⟩

theorem applyLogin_frame {j : Json} {m r : Machine} (h : applyLogin j m = .ok r) :
    r.address = m.address ∧ r.name = m.name ∧ r.normalized_name = m.normalized_name ∧
      r.http_port = m.http_port := by
  unfold applyLogin at h
  split at h
  · cases h
  · cases h
    exact ⟨rfl, rfl, rfl, rfl⟩
  · split at h
    · cases h
    · cases h
      exact ⟨rfl, rfl, rfl, rfl⟩

theorem fetchProps_frame {env : ResolveEnv} {nl nd : Bool} {m r : Machine}
    (h : fetchProps env nl nd m = .ok r) :
    r.address = m.address ∧ r.name = m.name ∧ r.normalized_name = m.normalized_name ∧
      r.http_port = m.http_port := by
  unfold fetchProps at h
  split at h
  · split at h
    · cases h
      exact ⟨rfl, rfl, rfl, rfl⟩
    · split at h
      · cases h
      · split at h
        · cases h
        · rename_i m1 h1
          split at h
          · cases h
          · rename_i m2 h2
            have f1 := applySettings_frame h1
            have f2 := applyDevkit1_frame h2
            have f3 := applyLogin_frame h
            exact ⟨f3.1.trans (f2.1.trans f1.1), f3.2.1.trans (f2.2.1.trans f1.2.1),
              f3.2.2.1.trans (f2.2.2.1.trans f1.2.2.1),
              f3.2.2.2.trans (f2.2.2.2.1.trans f1.2.2.2.1)⟩
  · cases h
    exact ⟨rfl, rfl, rfl, rfl⟩

theorem fetchLoginName_frame (env : ResolveEnv) (nl : Bool) (m : Machine) :
    (fetchLoginName env nl m).address = m.address ∧
      (fetchLoginName env nl m).name = m.name ∧
      (fetchLoginName env nl m).normalized_name = m.normalized_name ∧
      (fetchLoginName env nl m).http_port = m.http_port := by
  unfold fetchLoginName
  split
  · split
    · exact ⟨rfl, rfl, rfl, rfl⟩
    · exact ⟨rfl, rfl, rfl, rfl⟩
  · exact ⟨rfl, rfl, rfl, rfl⟩

theorem complete_metadata_frame {env : ResolveEnv} {nl nd : Bool} {m r : Machine}
    (h : complete_metadata env nl nd m = .ok r) :
    r.address = m.address ∧ r.name = m.name ∧ r.normalized_name = m.normalized_name ∧
      r.http_port = m.http_port := by
  unfold complete_metadata at h
  split at h
  · cases h
  · rename_i m1 h1
    cases h
    have f1 := fetchProps_frame h1
    have f2 := fetchLoginName_frame env nl m1
    exact ⟨f2.1.trans f1.1, f2.2.1.trans f1.2.1, f2.2.2.1.trans f1.2.2.1,
      f2.2.2.2.trans f1.2.2.2⟩

/-! ## Resolution lemmas -/

theorem inet_ntoa_ne_empty (a : Nat × Nat × Nat × Nat) : inet_ntoa a ≠ "" := by
  intro h
  have hd := congrArg String.data h
  simp only [inet_ntoa, str_data_append, List.append_eq_nil] at hd
  exact reprL_ne_nil a.1 hd.1.1.1.1.1.1

theorem resolveServicePhase_ok_address {env : ResolveEnv} {name : String}
    {d : List Json} {l : Option Json} {hp : Nat} {m1 : Machine}
    (h : resolveServicePhase env name d l hp = .ok m1) :
    ∃ a, m1.address = inet_ntoa a := by
  unfold resolveServicePhase at h
  split at h
  · cases h
  · obtain ⟨-, -, -, info, a, rest, -, -, haddr⟩ := update_service_info_ok h
    exact ⟨a, haddr⟩

theorem resolveServicePhase_ok_normalized {env : ResolveEnv} {name : String}
    {d : List Json} {l : Option Json} {hp : Nat} {m1 : Machine}
    (h : resolveServicePhase env name d l hp = .ok m1) :
    m1.normalized_name = normalizeServiceName (stripSuffixForms name) := by
  unfold resolveServicePhase at h
  split at h
  · cases h
  · exact (update_service_info_ok h).1

theorem resolveServicePhase_noAddress (env : ResolveEnv) (name : String)
    (d : List Json) (l : Option Json) (hp : Nat)
    (hna : noAddressAvailable env (stripSuffixForms name)) :
    ∃ msg, resolveServicePhase env name d l hp = .error (.machineNotFound msg) := by
  unfold resolveServicePhase update_service_info
  cases hl : env.listener with
  | none => exact ⟨_, rfl⟩
  | some st =>
    dsimp only
    cases hi : serviceInfoFor st env.query (stripSuffixForms name) with
    | none => exact ⟨_, rfl⟩
    | some info =>
      dsimp only
      rw [hna st hl info hi]
      exact ⟨_, rfl⟩

theorem resolve_service_normalized (env : ResolveEnv) (name : String) (d : List Json)
    (l : Option Json) (nl nd : Bool) (hp : Nat) (m : Machine)
    (h : resolve_machine env name d l nl nd .SERVICE_NAME hp = .ok m) :
    m.normalized_name = normalizeServiceName (stripSuffixForms name) := by
  simp only [resolve_machine] at h
  split at h
  · cases h
  · rename_i m1 hsvc
    rw [(complete_metadata_frame h).2.2.1]
    exact resolveServicePhase_ok_normalized hsvc

/-! ## Claim theorems -/

/-- C1: on the blocking execution path of `ssh_command`, exit 0 with stdout
`{"x":1}` returns the parsed payload; a non-zero exit code `c` raises
`CalledProcessError` carrying `c`; exit 0 with non-JSON stdout re-raises the
decode failure instead of returning an empty result. -/
theorem C1_ssh_blocking_semantics (command out : String) (c : Nat) :
    ssh_command_blocking command 0 "\x7b\"x\":1\x7d" = .payload (.obj [("x", .num 1)]) ∧
    (c ≠ 0 → ssh_command_blocking command c out = .commandFailed command c) ∧
    (∀ e, jsonLoads out = .error e →
      ssh_command_blocking command 0 out = .parseFailure e) := by
  refine ⟨rfl, ?_, ?_⟩
  · intro hc
    unfold ssh_command_blocking
    rw [if_pos hc]
  · intro e he
    unfold ssh_command_blocking machine_readable_command_reader
    rw [if_neg (by omega : ¬ (0 : Nat) ≠ 0), he]

/-- Witness for C1 at exit codes 0 and 7 and stdout `{"x":1}` / `notjson`. -/
theorem C1_ssh_blocking_semantics_witness :
    ssh_command_blocking "true" 0 "\x7b\"x\":1\x7d" = .payload (.obj [("x", .num 1)]) ∧
    ssh_command_blocking "true" 7 "ignored" = .commandFailed "true" 7 ∧
    ssh_command_blocking "true" 0 "notjson" = .parseFailure "Expecting value" :=
  ⟨(C1_ssh_blocking_semantics "true" "x" 0).1,
   (C1_ssh_blocking_semantics "true" "ignored" 7).2.1 (by omega),
   (C1_ssh_blocking_semantics "true" "notjson" 0).2.2 "Expecting value" rfl⟩

/-- C4: a name carrying one of the fully-qualified discovery suffix forms
resolves identically in GUESS mode and in explicit SERVICE_NAME mode (where
the suffix is stripped). -/
theorem C4_guess_equals_service (env : ResolveEnv) (name : String) (devkit1 : List Json)
    (login : Option Json) (need_login need_devkit1 : Bool) (http_port : Nat)
    (h : endsWithSuffixForms name = true) :
    resolve_machine env name devkit1 login need_login need_devkit1 .GUESS http_port
      = resolve_machine env name devkit1 login need_login need_devkit1
          .SERVICE_NAME http_port := by
  simp only [resolve_machine]
  rw [if_pos h]

/-- Witness for C4 at the fully-qualified name `kit._steamos-devkit._tcp.local.`. -/
theorem C4_guess_equals_service_witness :
    resolve_machine plainEnv "kit._steamos-devkit._tcp.local." [] none false false
        .GUESS 32000
      = resolve_machine plainEnv "kit._steamos-devkit._tcp.local." [] none false false
          .SERVICE_NAME 32000 :=
  C4_guess_equals_service plainEnv "kit._steamos-devkit._tcp.local." [] none false false
    32000 rfl

/-- C5 (amended): the ADDRESS-path normalized-name computation (ASCII
case-fold plus trailing-dot strip) is idempotent on every string; the
service-path computation, which additionally NFC-normalizes, is idempotent
on ASCII names but not universally — NFC maps U+212A KELVIN SIGN to the
ASCII letter `K`, which a second pass case-folds to `k` (see the
counterexample) — and resolving `"Foo.local."`, `"foo.local"` and `"FOO"` as
service names yields normalizedName `"foo"`. -/
theorem C5_normalization :
    (∀ s, normalizeAddress (normalizeAddress s) = normalizeAddress s) ∧
    (∀ s, isAsciiString s = true →
      normalizeServiceName (normalizeServiceName s) = normalizeServiceName s) ∧
    (∀ env d l nl nd hp m,
      resolve_machine env "Foo.local." d l nl nd .SERVICE_NAME hp = .ok m →
      m.normalized_name = "foo") ∧
    (∀ env d l nl nd hp m,
      resolve_machine env "foo.local" d l nl nd .SERVICE_NAME hp = .ok m →
      m.normalized_name = "foo") ∧
    (∀ env d l nl nd hp m,
      resolve_machine env "FOO" d l nl nd .SERVICE_NAME hp = .ok m →
      m.normalized_name = "foo") := by
  refine ⟨normalizeAddress_idem, fun s h => normalizeServiceName_idem_ascii h, ?_, ?_, ?_⟩ <;>
  · intro env d l nl nd hp m h
    rw [resolve_service_normalized env _ d l nl nd hp m h]
    rfl

/-- Witness for C5: both idempotence parts at the ASCII name `"Foo.local."`,
and the concrete resolution against `plainEnv` normalizing to `"foo"`. -/
theorem C5_normalization_witness :
    normalizeAddress (normalizeAddress "Foo.local.") = normalizeAddress "Foo.local." ∧
    normalizeServiceName (normalizeServiceName "Foo.local.")
      = normalizeServiceName "Foo.local." ∧
    resolve_machine plainEnv "Foo.local." [] none false false .SERVICE_NAME 32000
      = .ok fooMachine ∧
    fooMachine.normalized_name = "foo" := by
  refine ⟨C5_normalization.1 "Foo.local.",
    C5_normalization.2.1 "Foo.local." (by decide), rfl, ?_⟩
  exact C5_normalization.2.2.1 plainEnv [] none false false 32000 fooMachine rfl

/-- Counterexample to C5 as stated: the service-path normalizer is not
idempotent.  On U+212A KELVIN SIGN the case-fold leaves the character alone
and NFC canonically maps it to the ASCII letter `K`; renormalizing that
output case-folds it to `k`. -/
theorem C5_counterexample :
    normalizeServiceName "\u212A" = "K" ∧
    normalizeServiceName (normalizeServiceName "\u212A") = "k" ∧
    ("K" : String) ≠ "k" :=
  ⟨rfl, rfl, by decide⟩

/-- C9: when the local directory does not exist, `rsync_transfer` raises
before anything is spawned — the spawn trace is empty and the call fails. -/
theorem C9_sync_no_spawn (env : RsyncEnv) (localdir user ipaddress remotedir : String)
    (de sn vc up : Bool) (extra : List String) (rc : Nat)
    (h : env.isdir localdir = false) :
    rsync_transfer env localdir user ipaddress remotedir de sn vc up extra rc
      = ([], .error ("Source directory does not exist: " ++ localdir)) := by
  simp [rsync_transfer, h]

/-- Witness for C9 at the nonexistent directory `/nope`. -/
theorem C9_sync_no_spawn_witness :
    rsync_transfer plainRsyncEnv "/nope" "user" "1.2.3.4" "/dst" false false false true [] 0
      = ([], .error "Source directory does not exist: /nope") :=
  C9_sync_no_spawn plainRsyncEnv "/nope" "user" "1.2.3.4" "/dst" false false false true []
    0 (by decide)

/-- C10: a remove callback for a name absent from the cache changes nothing:
the map is untouched and no event is queued. -/
theorem C10_remove_unknown_noop (st : ListenerState) (name sn : String)
    (h1 : stripServiceType name = some sn)
    (h2 : List.lookup sn st.devkits = none) :
    remove_service st name = some st := by
  unfold remove_service
  rw [h1]
  simp [h2]

/-- Witness for C10 on an empty cache. -/
theorem C10_remove_unknown_noop_witness :
    remove_service { devkits := [], events := [] } "kit._steamos-devkit._tcp.local."
      = some { devkits := [], events := [] } :=
  C10_remove_unknown_noop { devkits := [], events := [] }
    "kit._steamos-devkit._tcp.local." "kit" rfl rfl

/-- C3 (amended): a version-mismatched record observed by the listener add
callback is dropped — not stored and not queued, so `addressFor`/`portFor`
keep returning their defaults for it; the on-demand synchronous query path,
by contrast, applies no version check (see the counterexample). -/
theorem C3_listener_version_filter (st : ListenerState) (name sn : String) (info : SvcInfo)
    (h1 : stripServiceType name = some sn)
    (h2 : info.addresses ≠ [])
    (h3 : txtversIncompatible info = true) :
    add_service st name (some info) = some st ∧
    (List.lookup sn st.devkits = none →
      address_for_service st sn = none ∧
      port_for_service st sn = DEFAULT_DEVKIT_SERVICE_HTTP) := by
  constructor
  · unfold add_service
    rw [h1]
    dsimp only
    cases ha : info.addresses with
    | nil => exact absurd ha h2
    | cons a rest =>
      dsimp only
      rw [if_pos h3]
  · intro hnone
    constructor
    · unfold address_for_service
      rw [hnone]
    · unfold port_for_service
      rw [hnone]

/-- Witness for C3 on an empty cache and the mismatched record. -/
theorem C3_listener_version_filter_witness :
    (add_service { devkits := [], events := [] } "kit._steamos-devkit._tcp.local."
        (some mismatchInfo) = some { devkits := [], events := [] } ∧
      (List.lookup "kit" ([] : List (String × SvcInfo)) = none →
        address_for_service { devkits := [], events := [] } "kit" = none ∧
        port_for_service { devkits := [], events := [] } "kit"
          = DEFAULT_DEVKIT_SERVICE_HTTP)) :=
  C3_listener_version_filter { devkits := [], events := [] }
    "kit._steamos-devkit._tcp.local." "kit" mismatchInfo rfl (by decide) rfl

/-- Counterexample to C3 as stated: the on-demand synchronous discovery query
in `update_service_info` performs no `txtvers` check, so a record whose
version tag is `"2"` is used by name resolution and its address surfaces. -/
theorem C3_counterexample :
    txtversIncompatible mismatchInfo = true ∧
    (resolve_machine mismatchEnv "kit" [] none false false .SERVICE_NAME 32000).toOption.map
        Machine.address = some "10.0.0.5" :=
  ⟨rfl, rfl⟩

/-- C7 (amended): the discovery-record fills leave a caller-supplied login and
the entry-point args untouched whenever the login is set, and a failed
optional metadata fetch leaves the whole machine unchanged; a successful
`/properties.json` fetch, however, overwrites login, entry point and settings
whenever its keys are present (see the counterexample). -/
theorem C7_fill_behaviour :
    (∀ props (m r : Machine), m.login.isNone = false → applyProps props m = .ok r →
      r.login = m.login ∧ r.devkit1 = m.devkit1) ∧
    (∀ env nl nd (m : Machine), env.httpProperties m.address m.http_port = none →
      env.httpLoginName m.address m.http_port = none →
      complete_metadata env nl nd m = .ok m) := by
  constructor
  · intro props m r hl h
    exact applyProps_login_frame hl h
  · intro env nl nd m hp hl
    unfold complete_metadata
    have h1 : fetchProps env nl nd m = .ok m := by
      unfold fetchProps
      split
      · rw [hp]
      · rfl
    rw [h1]
    have h2 : fetchLoginName env nl m = m := by
      unfold fetchLoginName
      split
      · rw [hl]
      · rfl
    exact congrArg Except.ok h2

/-- Witness for C7: on a machine with a caller-supplied login and entry point
and an unreachable metadata server, resolution completion is the identity. -/
theorem C7_fill_behaviour_witness :
    complete_metadata offlineEnv true true loggedMachine = .ok loggedMachine :=
  C7_fill_behaviour.2 offlineEnv true true loggedMachine rfl rfl

/-- Counterexample to C7 as stated: a caller-supplied login (`"me"`) is
overwritten by a successful `/properties.json` fetch reporting `"other"`,
because the fetch runs whenever the entry point is still empty and assigns
`login` unconditionally. -/
theorem C7_counterexample :
    (resolve_machine loginOverwriteEnv "10.1.2.3" [] (some (.str "me")) false true
        .ADDRESS 32000).toOption.map Machine.login
      = some (some (.str "other")) :=
  rfl

/-- C6: an add callback (for a discovered, version-compatible record of a name
not in the cache) followed by a remove callback pushes exactly one add event
then one del event, in order, and leaves the map exactly as before; an add
callback for a name already present pushes an update event instead of a
second add. -/
theorem C6_event_discipline (st : ListenerState) (name sn : String) (info : SvcInfo)
    (h1 : stripServiceType name = some sn)
    (h2 : info.addresses ≠ [])
    (h3 : txtversIncompatible info = false)
    (h4 : List.lookup sn st.devkits = none) :
    (∃ st1 st2,
      add_service st name (some info) = some st1 ∧
      st1.events = st.events ++ [(.add, sn)] ∧
      remove_service st1 name = some st2 ∧
      st2.events = st.events ++ [(.add, sn), (.del, sn)] ∧
      st2.devkits = st.devkits ∧
      List.lookup sn st2.devkits = none) ∧
    (∀ (st' : ListenerState) (info' : SvcInfo),
      (List.lookup sn st'.devkits).isSome = true →
      info'.addresses ≠ [] → txtversIncompatible info' = false →
      ∃ st'', add_service st' name (some info') = some st'' ∧
        st''.events = st'.events ++ [(.update, sn)]) := by
  constructor
  · have hadd : add_service st name (some info)
        = some { devkits := dictSet st.devkits sn info,
                 events := st.events ++ [(.add, sn)] } := by
      unfold add_service
      rw [h1]
      dsimp only
      cases ha : info.addresses with
      | nil => exact absurd ha h2
      | cons a rest =>
        dsimp only
        rw [if_neg (by rw [h3]; exact Bool.false_ne_true), h4]
        rfl
    have hrem : remove_service
        { devkits := dictSet st.devkits sn info,
          events := st.events ++ [(.add, sn)] } name
        = some { devkits := dictDel (dictSet st.devkits sn info) sn,
                 events := (st.events ++ [(.add, sn)]) ++ [(.del, sn)] } := by
      unfold remove_service
      rw [h1]
      dsimp only
      rw [lookup_dictSet_self]
      rfl
    refine ⟨_, _, hadd, rfl, hrem, ?_, ?_, ?_⟩
    · dsimp only
      rw [List.append_assoc]
      rfl
    · dsimp only
      exact dictDel_dictSet st.devkits sn info h4
    · dsimp only
      rw [dictDel_dictSet st.devkits sn info h4]
      exact h4
  · intro st' info' hsome ha' hv'
    have hupd : add_service st' name (some info')
        = some { devkits := dictSet st'.devkits sn info',
                 events := st'.events ++ [(.update, sn)] } := by
      unfold add_service
      rw [h1]
      dsimp only
      cases ha : info'.addresses with
      | nil => exact absurd ha ha'
      | cons a rest =>
        dsimp only
        rw [if_neg (by rw [hv']; exact Bool.false_ne_true), if_pos hsome]
    exact ⟨_, hupd, rfl⟩

/-- Witness for C6 on an empty cache and a version-compatible record. -/
theorem C6_event_discipline_witness :
    (∃ st1 st2,
      add_service { devkits := [], events := [] } "kit._steamos-devkit._tcp.local."
          (some plainInfo) = some st1 ∧
      st1.events = [(.add, "kit")] ∧
      remove_service st1 "kit._steamos-devkit._tcp.local." = some st2 ∧
      st2.events = [(.add, "kit"), (.del, "kit")] ∧
      st2.devkits = [] ∧
      List.lookup "kit" st2.devkits = none) ∧
    (∀ (st' : ListenerState) (info' : SvcInfo),
      (List.lookup "kit" st'.devkits).isSome = true →
      info'.addresses ≠ [] → txtversIncompatible info' = false →
      ∃ st'', add_service st' "kit._steamos-devkit._tcp.local." (some info') = some st'' ∧
        st''.events = st'.events ++ [(.update, "kit")]) :=
  C6_event_discipline { devkits := [], events := [] } "kit._steamos-devkit._tcp.local."
    "kit" plainInfo rfl (by decide) rfl rfl

/-- C8 (amended): when some of the first 99 polls reports the artifact, the
screenshot operation downloads it to a path that collides with no existing
local file and does not raise the timeout; when the artifact first appears
only on the hundredth (final) poll, the code downloads it and still raises
the timeout (see the counterexample), so the claim's bound is 99, not 100. -/
theorem C8_poll_fetch (env : ShotEnv) (args : ShotArgs) (fs : List String) (a : Nat)
    (h1 : 1 ≤ a) (h2 : a ≤ 99) (h3 : (env.poll a).1 = 0) (h4 : (env.poll a).2 ≠ "") :
    ∃ p, (screenshot env args fs).downloaded = some p ∧ p ∉ fs ∧
      (screenshot env args fs).timedOut = false :=
  screenshotLoop_found env args fs 100 ⟨a, h1, by omega, h3, h4⟩

/-- Witness for C8: the artifact appears on the third poll and the computed
local name collides with an existing file, so a disambiguated fresh path is
chosen and no timeout fires. -/
theorem C8_poll_fetch_witness :
    ∃ p, (screenshot thirdPollShotEnv plainShotArgs
        ["/shots/gamescope_20240101.png"]).downloaded = some p ∧
      p ∉ ["/shots/gamescope_20240101.png"] ∧
      (screenshot thirdPollShotEnv plainShotArgs
        ["/shots/gamescope_20240101.png"]).timedOut = false :=
  C8_poll_fetch thirdPollShotEnv plainShotArgs ["/shots/gamescope_20240101.png"] 97
    (by omega) (by omega) rfl (by decide)

/-- Counterexample to C8 as stated: with the artifact first visible on the
hundredth poll — still within the ~100-attempt bound — the code downloads the
file and then raises the timeout exception anyway, because the final
`attempts <= 0` check does not exclude the successful-fetch exit. -/
theorem C8_counterexample :
    (screenshot boundaryShotEnv plainShotArgs []).downloaded
        = some "/shots/gamescope_x.png" ∧
      (screenshot boundaryShotEnv plainShotArgs []).timedOut = true :=
  ⟨rfl, rfl⟩

/-- C2 (amended): for every non-empty input name, a successful resolution
carries a non-empty address (the service path places a dotted-quad there and
the address path keeps the typed name); and when the service-name lookup can
establish no address — listener missing, no record, or a record without
addresses — the call fails with MachineNotFound.  For the empty input name
the code returns the empty string itself as the address (see the
counterexample). -/
theorem C2_address_invariant :
    (∀ env name devkit1 login need_login need_devkit1 name_type http_port
       (m : Machine), name ≠ "" →
       resolve_machine env name devkit1 login need_login need_devkit1 name_type
         http_port = .ok m →
       m.address ≠ "") ∧
    (∀ env name devkit1 login need_login need_devkit1 http_port,
       noAddressAvailable env (stripSuffixForms name) →
       ∃ msg, resolve_machine env name devkit1 login need_login need_devkit1
         .SERVICE_NAME http_port = .error (.machineNotFound msg)) := by
  constructor
  · intro env name d l nl nd nt hp m hne h
    cases nt with
    | SERVICE_NAME =>
      simp only [resolve_machine] at h
      split at h
      · cases h
      · rename_i m1 hsvc
        obtain ⟨a, ha⟩ := resolveServicePhase_ok_address hsvc
        rw [(complete_metadata_frame h).1, ha]
        exact inet_ntoa_ne_empty a
    | ADDRESS =>
      simp only [resolve_machine] at h
      rw [(complete_metadata_frame h).1]
      exact hne
    | GUESS =>
      simp only [resolve_machine] at h
      by_cases hsfx : endsWithSuffixForms name = true
      · rw [if_pos hsfx] at h
        split at h
        · cases h
        · rename_i m1 hsvc
          obtain ⟨a, ha⟩ := resolveServicePhase_ok_address hsvc
          rw [(complete_metadata_frame h).1, ha]
          exact inet_ntoa_ne_empty a
      · rw [if_neg hsfx] at h
        by_cases hdot : strContainsChar name '.' = true
        · rw [if_pos hdot] at h
          rw [(complete_metadata_frame h).1]
          exact hne
        · rw [if_neg hdot] at h
          split at h
          · rename_i m1 hsvc
            obtain ⟨a, ha⟩ := resolveServicePhase_ok_address hsvc
            rw [(complete_metadata_frame h).1, ha]
            exact inet_ntoa_ne_empty a
          · rw [(complete_metadata_frame h).1]
            exact hne
          · cases h
  · intro env name d l nl nd hp hna
    obtain ⟨msg, hmsg⟩ := resolveServicePhase_noAddress env name d l hp hna
    refine ⟨msg, ?_⟩
    simp only [resolve_machine]
    rw [hmsg]

/-- Witness for C2: a non-empty address-mode name resolves to itself as the
address, and a service-name lookup with nothing discoverable fails with
MachineNotFound. -/
theorem C2_address_invariant_witness :
    ((resolve_machine offlineEnv "example.org" [] none false false .ADDRESS
        32000).toOption.map Machine.address = some "example.org") ∧
    (∃ msg, resolve_machine offlineEnv "kit" [] none true true .SERVICE_NAME 32000
      = .error (.machineNotFound msg)) :=
  ⟨rfl, C2_address_invariant.2 offlineEnv "kit" [] none true true 32000
    (fun st hst => by cases hst)⟩

/-- Counterexample to C2 as stated: resolving the empty input name in ADDRESS
mode returns success, and the returned descriptor's address is the empty
string. -/
theorem C2_counterexample :
    (resolve_machine offlineEnv "" [] none true true .ADDRESS 32000).toOption.map
        Machine.address = some "" :=
  rfl
